import Mathlib

/-!
# Verification of the betterddb key-derivation and mutation engine

Shallow embedding of the TypeScript sources of the `betterddb` library
(schema-driven DynamoDB data-access layer).  JavaScript objects used as
string-keyed records are embedded as insertion-ordered association lists
with JavaScript assignment semantics (`setA` overwrites in place, appends
new keys at the end).  The external Zod validator is a black box per the
specification, so `schema.parse` / `partialSchema.parse` are embedded as
the identity on already-structured values.  Promise-based storage calls
are embedded by passing store responses explicitly and returning a
description of the dispatched storage operation(s).
-/

set_option autoImplicit false

namespace BetterDDB

/-! ## JavaScript record primitives -/

/-- A string-keyed JavaScript object, as an insertion-ordered association
list.  Well-formed objects have no duplicate keys. -/
abbrev Assoc (α : Type) := List (String × α)

/-- `obj[k]` — first binding for `k`, if any. -/
def getA {α : Type} : Assoc α → String → Option α
  | [], _ => none
  | (k', v) :: t, k => if k' = k then some v else getA t k

/-- `obj[k] = v` — JavaScript assignment: overwrite the existing binding in
place, otherwise append at the end. -/
def setA {α : Type} : Assoc α → String → α → Assoc α
  | [], k, v => [(k, v)]
  | (k', v') :: t, k, v => if k' = k then (k', v) :: t else (k', v') :: setA t k v

/-- `delete obj[k]` — remove the binding for `k`. -/
def delA {α : Type} : Assoc α → String → Assoc α
  | [], _ => []
  | (k', v') :: t, k => if k' = k then t else (k', v') :: delA t k

/-- `Object.assign(target, src)` (also the spread `{...target, ...src}`):
assign every binding of `src` into `target`, left to right. -/
def assignA {α : Type} (target src : Assoc α) : Assoc α :=
  src.foldl (fun m kv => setA m kv.1 kv.2) target

/-- Keys of an object, in order. -/
def keysA {α : Type} (m : Assoc α) : List String := m.map Prod.fst

instance {ε α : Type} [DecidableEq ε] [DecidableEq α] : DecidableEq (Except ε α) :=
  fun x y =>
    match x, y with
    | .ok a, .ok b =>
      if h : a = b then isTrue (by rw [h]) else isFalse (by simp [h])
    | .error a, .error b =>
      if h : a = b then isTrue (by rw [h]) else isFalse (by simp [h])
    | .ok _, .error _ => isFalse (by simp)
    | .error _, .ok _ => isFalse (by simp)

/-! ## Attribute values

JavaScript runtime values that flow through the library: strings, numbers,
and native sets (used by the ADD / DELETE update actions).  Numbers are
embedded as integers, which covers every value the key/index engine and
the update merge logic manipulate in the sources and tests. -/

inductive DVal where
  | str : String → DVal
  | num : Int → DVal
  | setv : List String → DVal
  deriving DecidableEq, Repr

abbrev AttrMap := Assoc DVal

/-- JavaScript `String(x)` on a possibly-undefined record field, as used by
`getKeyValue` / `buildKey` (`String(rawKey[def])`). -/
def jsString : Option DVal → String
  | some (.str s) => s
  | some (.num n) => toString n
  | some (.setv _) => "[object Set]"
  | none => "undefined"

/-! ## Key definition model (`src/betterddb.ts`) -/

/-- `KeyDefinition<T> = keyof T | { build: (rawKey) => string }` -/
inductive KeyDefinition where
  | field : String → KeyDefinition
  | build : (AttrMap → String) → KeyDefinition

/-- `PrimaryKeyConfig` / `SortKeyConfig`: storage attribute name plus a key
definition. -/
structure KeyConfig where
  name : String
  definition : KeyDefinition

/-- `GSIConfig`: index name, primary config, optional sort config. -/
structure GSIConfig where
  name : String
  primary : KeyConfig
  sort : Option KeyConfig

/-- `KeysConfig`: table primary key, optional sort key, named GSIs. -/
structure KeysConfig where
  primary : KeyConfig
  sort : Option KeyConfig
  gsis : List (String × GSIConfig)

/-- `getKeyValue`: a field reference reads the raw value and coerces it with
`String(...)`; a builder definition runs its build function. -/
def evalKeyDef (d : KeyDefinition) (raw : AttrMap) : String :=
  match d with
  | .field f => jsString (getA raw f)
  | .build b => b raw

/-- `BetterDDB.buildKey`: primary (and sort, if configured) storage
attributes computed from a raw key object. -/
def buildKey (cfg : KeysConfig) (raw : AttrMap) : AttrMap :=
  let m := setA ([] : AttrMap) cfg.primary.name (.str (evalKeyDef cfg.primary.definition raw))
  match cfg.sort with
  | some sk => setA m sk.name (.str (evalKeyDef sk.definition raw))
  | none => m

/-- `BetterDDB.buildIndexes`: for every configured GSI, compute its primary
(and optional sort) storage attributes from the raw item. -/
def buildIndexes (cfg : KeysConfig) (raw : AttrMap) : AttrMap :=
  cfg.gsis.foldl
    (fun m g =>
      let m1 := setA m g.2.primary.name (.str (evalKeyDef g.2.primary.definition raw))
      match g.2.sort with
      | some sk => setA m1 sk.name (.str (evalKeyDef sk.definition raw))
      | none => m1)
    ([] : AttrMap)

/-! ## Expression compiler: operators (`src/operator.ts`) -/

/-- The closed operator set of `src/operator.ts`. -/
inductive Operator where
  | eq | ne | lt | le | gt | ge | beginsWith | between | contains
  deriving DecidableEq, Repr

/-- `getOperatorExpression(operator, nameKey, valueKey, secondValueKey?)`;
the thrown `Error` is embedded as `Except.error` of its message. -/
def getOperatorExpression (operator : Operator) (nameKey valueKey : String)
    (secondValueKey : Option String := none) : Except String String :=
  match operator with
  | .eq => .ok (nameKey ++ " = " ++ valueKey)
  | .ne => .ok (nameKey ++ " <> " ++ valueKey)
  | .lt => .ok (nameKey ++ " < " ++ valueKey)
  | .le => .ok (nameKey ++ " <= " ++ valueKey)
  | .gt => .ok (nameKey ++ " > " ++ valueKey)
  | .ge => .ok (nameKey ++ " >= " ++ valueKey)
  | .beginsWith => .ok ("begins_with(" ++ nameKey ++ ", " ++ valueKey ++ ")")
  | .between =>
    match secondValueKey with
    | none => .error "The 'between' operator requires two value keys"
    | some snd => .ok (nameKey ++ " BETWEEN " ++ valueKey ++ " AND " ++ snd)
  | .contains => .ok ("contains(" ++ nameKey ++ ", " ++ valueKey ++ ")")

/-! ## Scan and Query builders (`src/builders/scan-builder.ts`,
`src/builders/query-builder.ts`) -/

/-- A JavaScript argument of type `any | [any, any]`: `undefined`, a
non-array value, or an array (`Array.isArray` distinguishes the last). -/
inductive JSVals where
  | undefinedVal
  | single : DVal → JSVals
  | arr : List DVal → JSVals
  deriving DecidableEq, Repr

/-- The `'eq' | 'begins_with' | 'between'` operator union of
`ScanBuilder.where`. -/
inductive ScanOp where
  | eqOp | beginsWith | between
  deriving DecidableEq, Repr

/-- Scan builder state accumulated by `where` calls. -/
structure ScanState where
  filters : List String
  expressionAttributeNames : Assoc String
  expressionAttributeValues : Assoc JSVals
  deriving DecidableEq, Repr

/-- `ScanBuilder.where(attribute, operator, values)`.  The thrown arity
error for `between` is `Except.error`; note the source assigns the name
placeholder before the arity check, and the throw aborts before any filter
fragment is pushed or any storage call happens (dispatch only occurs in
`execute`). -/
def scanWhere (st : ScanState) (attrName : String) (operator : ScanOp)
    (values : JSVals) : Except String ScanState :=
  let attrStr := attrName
  let nameKey := "#attr_" ++ attrStr
  let st1 : ScanState :=
    { st with expressionAttributeNames := setA st.expressionAttributeNames nameKey attrStr }
  match operator with
  | .eqOp =>
    let valueKey := ":val_" ++ attrStr
    .ok { st1 with
      expressionAttributeValues := setA st1.expressionAttributeValues valueKey values
      filters := st1.filters ++ [nameKey ++ " = " ++ valueKey] }
  | .beginsWith =>
    let valueKey := ":val_" ++ attrStr
    .ok { st1 with
      expressionAttributeValues := setA st1.expressionAttributeValues valueKey values
      filters := st1.filters ++ ["begins_with(" ++ nameKey ++ ", " ++ valueKey ++ ")"] }
  | .between =>
    match values with
    | .arr [v0, v1] =>
      let valueKeyStart := ":val_start_" ++ attrStr
      let valueKeyEnd := ":val_end_" ++ attrStr
      .ok { st1 with
        expressionAttributeValues :=
          setA (setA st1.expressionAttributeValues valueKeyStart (.single v0))
            valueKeyEnd (.single v1)
        filters := st1.filters ++
          [nameKey ++ " BETWEEN " ++ valueKeyStart ++ " AND " ++ valueKeyEnd] }
    | _ => .error "For 'between' operator, values must be a tuple of two items"

/-- Query builder state accumulated by `where` / `filter` calls
(sdk-v3 `QueryBuilder`). -/
structure QueryState where
  keyConditions : List String
  filterConditions : List String
  expressionAttributeNames : Assoc String
  expressionAttributeValues : Assoc JSVals
  deriving DecidableEq, Repr

/-- `where` sort-key argument: `Partial<T> | [Partial<T>, Partial<T>]`
(always a JavaScript object; `Array.isArray` distinguishes tuples). -/
inductive QWhereVals where
  | obj : AttrMap → QWhereVals
  | arr : List AttrMap → QWhereVals

/-- The sort-key value stored by `QueryBuilder.where`: the configured key
builder applied to the supplied partial, looked up at the sort storage
attribute (an absent attribute is JavaScript `undefined`). -/
def querySortValue (cfg : KeysConfig) (index : Option GSIConfig)
    (sortKeyName : String) (v : AttrMap) : JSVals :=
  match index with
  | some _ =>
    match getA (buildIndexes cfg v) sortKeyName with
    | some d => .single d
    | none => .undefinedVal
  | none =>
    match getA (buildKey cfg v) sortKeyName with
    | some d => .single d
    | none => .undefinedVal

/-- The sort key name resolved by `QueryBuilder.where`: from the selected
index when `usingIndex` was called, otherwise from the table keys. -/
def sortKeyNameOf (cfg : KeysConfig) (index : Option GSIConfig) : Option String :=
  match index with
  | some i => i.sort.map KeyConfig.name
  | none => cfg.sort.map KeyConfig.name

/-- `QueryBuilder.where(operator, values)` (sdk-v3 version): compiles the
sort-key condition of the key-condition expression. -/
def queryWhere (cfg : KeysConfig) (index : Option GSIConfig) (st : QueryState)
    (operator : Operator) (values : QWhereVals) : Except String QueryState :=
  match sortKeyNameOf cfg index with
  | none => .error "Sort key is not defined for this table/index."
  | some sortKeyName =>
    let nameKey := "#sk"
    let st1 : QueryState :=
      { st with expressionAttributeNames := setA st.expressionAttributeNames nameKey sortKeyName }
    match operator with
    | .between =>
      match values with
      | .arr [v0, v1] =>
        let valueKeyStart := ":sk_start"
        let valueKeyEnd := ":sk_end"
        .ok { st1 with
          expressionAttributeValues :=
            setA (setA st1.expressionAttributeValues valueKeyStart
                (querySortValue cfg index sortKeyName v0))
              valueKeyEnd (querySortValue cfg index sortKeyName v1)
          keyConditions := st1.keyConditions ++
            [nameKey ++ " BETWEEN " ++ valueKeyStart ++ " AND " ++ valueKeyEnd] }
      | _ => .error "For 'between' operator, values must be a tuple of two objects"
    | .beginsWith =>
      match values with
      | .obj v =>
        let valueKey := ":sk_value"
        .ok { st1 with
          expressionAttributeValues := setA st1.expressionAttributeValues valueKey
            (querySortValue cfg index sortKeyName v)
          keyConditions := st1.keyConditions ++
            ["begins_with(" ++ nameKey ++ ", " ++ valueKey ++ ")"] }
      | .arr _ => .error "For complex sort keys, please provide an object with all necessary properties."
    | _ =>
      match values with
      | .obj v =>
        let valueKey := ":sk_value"
        match getOperatorExpression operator nameKey valueKey with
        | .error e => .error e
        | .ok condition =>
          .ok { st1 with
            expressionAttributeValues := setA st1.expressionAttributeValues valueKey
              (querySortValue cfg index sortKeyName v)
            keyConditions := st1.keyConditions ++ [condition] }
      | .arr _ => .error "For complex sort keys, please provide an object with all necessary properties."

/-- The string value of the TypeScript `Operator` enum member
(used verbatim by `QueryBuilder.filter` for function-style fragments). -/
def Operator.jsValue : Operator → String
  | Operator.beginsWith => "begins_with"
  | Operator.between => "between"
  | Operator.contains => "contains"
  | Operator.eq => "=="
  | Operator.ne => "!="
  | Operator.lt => "<"
  | Operator.le => "<="
  | Operator.gt => ">"
  | Operator.ge => ">="

/-- `QueryBuilder.filter(attribute, operator, values)`.  The
`Math.random()`-derived suffix is an explicit input (`randomString`),
making the source's nondeterministic token minting a parameter. -/
def queryFilter (st : QueryState) (attrName : String) (operator : Operator)
    (values : JSVals) (randomString : String) : Except String QueryState :=
  let attrStr := attrName
  let placeholderName := "#attr_" ++ attrStr ++ "_" ++ randomString
  let st1 : QueryState :=
    { st with expressionAttributeNames := setA st.expressionAttributeNames placeholderName attrStr }
  match operator with
  | .between =>
    match values with
    | .arr [v0, v1] =>
      let placeholderValueStart := ":val_start_" ++ attrStr ++ "_" ++ randomString
      let placeholderValueEnd := ":val_end_" ++ attrStr ++ "_" ++ randomString
      .ok { st1 with
        expressionAttributeValues :=
          setA (setA st1.expressionAttributeValues placeholderValueStart (.single v0))
            placeholderValueEnd (.single v1)
        filterConditions := st1.filterConditions ++
          [placeholderName ++ " BETWEEN " ++ placeholderValueStart ++ " AND " ++
            placeholderValueEnd] }
    | _ => .error "For 'between' operator, values must be a tuple of two items"
  | .beginsWith =>
    let placeholderValue := ":val_" ++ attrStr ++ "_" ++ randomString
    .ok { st1 with
      expressionAttributeValues := setA st1.expressionAttributeValues placeholderValue values
      filterConditions := st1.filterConditions ++
        [Operator.jsValue operator ++ "(" ++ placeholderName ++ ", " ++ placeholderValue ++ ")"] }
  | .contains =>
    let placeholderValue := ":val_" ++ attrStr ++ "_" ++ randomString
    .ok { st1 with
      expressionAttributeValues := setA st1.expressionAttributeValues placeholderValue values
      filterConditions := st1.filterConditions ++
        [Operator.jsValue operator ++ "(" ++ placeholderName ++ ", " ++ placeholderValue ++ ")"] }
  | _ =>
    let placeholderValue := ":val_" ++ attrStr ++ "_" ++ randomString
    match getOperatorExpression operator placeholderName placeholderValue with
    | .error e => .error e
    | .ok condition =>
      .ok { st1 with
        expressionAttributeValues := setA st1.expressionAttributeValues placeholderValue values
        filterConditions := st1.filterConditions ++ [condition] }

/-- The value-placeholder tokens minted by one `QueryBuilder.filter` call
for a given attribute, operator and random suffix. -/
def filterValueTokens (attrName : String) (operator : Operator)
    (randomString : String) : List String :=
  match operator with
  | .between =>
    [":val_start_" ++ attrName ++ "_" ++ randomString,
     ":val_end_" ++ attrName ++ "_" ++ randomString]
  | _ => [":val_" ++ attrName ++ "_" ++ randomString]

/-! ## Update builder (`src/builders/update-builder.ts` and the variant
with index rebuild inside `buildExpression`)

Two revisions of `UpdateBuilder` appear in the sources.  Both are embedded:
`...V2` names the revision in `src/builders/update-builder.ts` whose
`buildExpression` compiles only the four action sets, and `...V3` names the
revision whose `buildExpression(newItemForIndexes?)` additionally folds the
recomputed index attributes into the SET clause and whose `set` consults
the schema's optional-field information. -/

/-- The four accumulated action sets of an `UpdateBuilder`
(`UpdateActions<T>`); `none` is the JavaScript `undefined` field. -/
structure UpdateActions where
  set : Option AttrMap := none
  remove : Option (List String) := none
  add : Option AttrMap := none
  delete : Option AttrMap := none
  deriving DecidableEq, Repr

/-- A caller-supplied condition (`setCondition` accumulates expression text
plus its placeholder name/value bindings). -/
structure UpdateCondition where
  expression : String
  attributeValues : AttrMap
  attributeNames : Assoc String
  deriving DecidableEq, Repr

/-- Result of `buildExpression`. -/
structure CompiledUpdate where
  updateExpression : String
  attributeNames : Assoc String
  attributeValues : Option AttrMap
  deriving DecidableEq, Repr

/-- One loop of `buildExpression`: mint `tokPrefix + attr` name placeholders
for the given fields into the `ExpressionAttributeNames` object. -/
def addNameTokens (tokPrefix : String) (fields : List String)
    (names : Assoc String) : Assoc String :=
  fields.foldl (fun m a => setA m (tokPrefix ++ a) a) names

/-- One loop of `buildExpression`: mint `tokPrefix + attr` value placeholders
for the given entries into the `ExpressionAttributeValues` object. -/
def addValueTokens (tokPrefix : String) (entries : AttrMap)
    (values : AttrMap) : AttrMap :=
  entries.foldl (fun m av => setA m (tokPrefix ++ av.1) av.2) values

/-- `SET` fragments `#n_attr = :v_attr` for a list of entries, with the
given name/value token prefixes. -/
def assignFragments (namePrefix valuePrefix : String) (entries : AttrMap) :
    List String :=
  entries.map (fun av => namePrefix ++ av.1 ++ " = " ++ valuePrefix ++ av.1)

/-- `ADD`/`DELETE` fragments `#n_attr :v_attr`. -/
def spaceFragments (entries : AttrMap) : List String :=
  entries.map (fun av => "#n_" ++ av.1 ++ " " ++ ":v_" ++ av.1)

/-- The `ExpressionAttributeNames` object accumulated by the V2
`buildExpression` loops: `#n_` tokens for the SET entries, then the REMOVE
fields, then the ADD entries, then the DELETE entries. -/
def v2Names (actions : UpdateActions) : Assoc String :=
  addNameTokens "#n_" (keysA (actions.delete.getD []))
    (addNameTokens "#n_" (keysA (actions.add.getD []))
      (addNameTokens "#n_" (actions.remove.getD [])
        (addNameTokens "#n_" (keysA (actions.set.getD [])) [])))

/-- The `ExpressionAttributeValues` object accumulated by the V2
`buildExpression` loops. -/
def v2Values (actions : UpdateActions) : AttrMap :=
  addValueTokens ":v_" (actions.delete.getD [])
    (addValueTokens ":v_" (actions.add.getD [])
      (addValueTokens ":v_" (actions.set.getD []) []))

/-- The clause list of the V2 `buildExpression`: each of
SET/REMOVE/ADD/DELETE is pushed only when its parts are non-empty. -/
def v2Clauses (actions : UpdateActions) : List String :=
  (if assignFragments "#n_" ":v_" (actions.set.getD []) ≠ [] then
    ["SET " ++ String.intercalate ", " (assignFragments "#n_" ":v_" (actions.set.getD []))]
  else []) ++
  (if actions.remove.getD [] ≠ [] then
    ["REMOVE " ++ String.intercalate ", " ((actions.remove.getD []).map (fun a => "#n_" ++ a))]
  else []) ++
  (if spaceFragments (actions.add.getD []) ≠ [] then
    ["ADD " ++ String.intercalate ", " (spaceFragments (actions.add.getD []))]
  else []) ++
  (if spaceFragments (actions.delete.getD []) ≠ [] then
    ["DELETE " ++ String.intercalate ", " (spaceFragments (actions.delete.getD []))]
  else [])

/-- `UpdateBuilder.buildExpression` (V2 revision): SET/REMOVE/ADD/DELETE
clauses from the four action sets, then merge of the caller condition's
placeholder bindings via `Object.assign`, then normalization of an empty
value map to `undefined`, and the `No attributes to update` error when no
clause was generated. -/
def buildExpressionV2 (actions : UpdateActions)
    (condition : Option UpdateCondition) : Except String CompiledUpdate :=
  let names := match condition with
    | some c => assignA (v2Names actions) c.attributeNames
    | none => v2Names actions
  let values := match condition with
    | some c => assignA (v2Values actions) c.attributeValues
    | none => v2Values actions
  let finalValues := if values = [] then none else some values
  if v2Clauses actions = [] then
    .error "No attributes to update - all values were empty or undefined"
  else
    .ok ⟨String.intercalate " " (v2Clauses actions), names, finalValues⟩

/-- The index attributes the V3 `buildExpression` folds into the SET
clause: recomputed from `newItemForIndexes` when supplied. -/
def v3IdxEntries (cfg : KeysConfig) (newItemForIndexes : Option AttrMap) : AttrMap :=
  match newItemForIndexes with
  | some it => buildIndexes cfg it
  | none => []

/-- The `ExpressionAttributeNames` object of the V3 `buildExpression`: as
V2 but with `#n_idx_` tokens for the index attributes minted after the SET
entries. -/
def v3Names (cfg : KeysConfig) (actions : UpdateActions)
    (newItemForIndexes : Option AttrMap) : Assoc String :=
  addNameTokens "#n_" (keysA (actions.delete.getD []))
    (addNameTokens "#n_" (keysA (actions.add.getD []))
      (addNameTokens "#n_" (actions.remove.getD [])
        (addNameTokens "#n_idx_" (keysA (v3IdxEntries cfg newItemForIndexes))
          (addNameTokens "#n_" (keysA (actions.set.getD [])) []))))

/-- The `ExpressionAttributeValues` object of the V3 `buildExpression`. -/
def v3Values (cfg : KeysConfig) (actions : UpdateActions)
    (newItemForIndexes : Option AttrMap) : AttrMap :=
  addValueTokens ":v_" (actions.delete.getD [])
    (addValueTokens ":v_" (actions.add.getD [])
      (addValueTokens ":v_idx_" (v3IdxEntries cfg newItemForIndexes)
        (addValueTokens ":v_" (actions.set.getD []) [])))

/-- The SET parts of the V3 `buildExpression`: the caller's assignments
followed by the recomputed index-attribute assignments. -/
def v3SetParts (cfg : KeysConfig) (actions : UpdateActions)
    (newItemForIndexes : Option AttrMap) : List String :=
  assignFragments "#n_" ":v_" (actions.set.getD []) ++
  assignFragments "#n_idx_" ":v_idx_" (v3IdxEntries cfg newItemForIndexes)

/-- The clause list of the V3 `buildExpression`. -/
def v3Clauses (cfg : KeysConfig) (actions : UpdateActions)
    (newItemForIndexes : Option AttrMap) : List String :=
  (if v3SetParts cfg actions newItemForIndexes ≠ [] then
    ["SET " ++ String.intercalate ", " (v3SetParts cfg actions newItemForIndexes)]
  else []) ++
  (if actions.remove.getD [] ≠ [] then
    ["REMOVE " ++ String.intercalate ", " ((actions.remove.getD []).map (fun a => "#n_" ++ a))]
  else []) ++
  (if spaceFragments (actions.add.getD []) ≠ [] then
    ["ADD " ++ String.intercalate ", " (spaceFragments (actions.add.getD []))]
  else []) ++
  (if spaceFragments (actions.delete.getD []) ≠ [] then
    ["DELETE " ++ String.intercalate ", " (spaceFragments (actions.delete.getD []))]
  else [])

/-- `UpdateBuilder.buildExpression(newItemForIndexes?)` (V3 revision): as V2
but with `#n_idx_` / `:v_idx_` placeholders for every index attribute
recomputed from `newItemForIndexes` appended to the SET clause, and the
error message spelled with an en dash. -/
def buildExpressionV3 (cfg : KeysConfig) (actions : UpdateActions)
    (condition : Option UpdateCondition) (newItemForIndexes : Option AttrMap) :
    Except String CompiledUpdate :=
  let names := match condition with
    | some c => assignA (v3Names cfg actions newItemForIndexes) c.attributeNames
    | none => v3Names cfg actions newItemForIndexes
  let values := match condition with
    | some c => assignA (v3Values cfg actions newItemForIndexes) c.attributeValues
    | none => v3Values cfg actions newItemForIndexes
  let finalValues := if values = [] then none else some values
  if v3Clauses cfg actions newItemForIndexes = [] then
    .error "No attributes to update – all values were empty or undefined"
  else
    .ok ⟨String.intercalate " " (v3Clauses cfg actions newItemForIndexes), names, finalValues⟩

/-! ### `UpdateBuilder.set` routing (C10) -/

/-- The schema information the V3 `set` consults:
`getSchema().shape[key]?.isOptional?.()`. -/
structure SchemaInfo where
  optionalFields : List String
  deriving DecidableEq, Repr

def isOptionalField (schema : SchemaInfo) (k : String) : Bool :=
  schema.optionalFields.contains k

/-- JavaScript `String.prototype.trim`: strip leading and trailing
whitespace (embedded on the character list so that it evaluates inside the
kernel). -/
def jsTrim (s : String) : String :=
  String.mk
    (((s.data.dropWhile Char.isWhitespace).reverse.dropWhile Char.isWhitespace).reverse)

/-- V2 routing test of `set`: `value === undefined || (typeof value ===
"string" && value.trim() === "")` sends the entry to the REMOVE set. -/
def emptyRouteV2 (v : Option DVal) : Bool :=
  match v with
  | none => true
  | some (.str s) => jsTrim s == ""
  | some _ => false

/-- V3 routing test of `set`: an empty-after-trim string is only routed to
REMOVE when the schema marks the field optional
(`this.parent.getSchema().shape[key]?.isOptional?.()`). -/
def emptyRouteV3 (schema : SchemaInfo) (k : String) (v : Option DVal) : Bool :=
  match v with
  | none => true
  | some (.str s) => jsTrim s == "" && isOptionalField schema k
  | some _ => false

/-- The keys the `set` reducer pushes into `toRemove`. -/
def routedRemove (route : String → Option DVal → Bool)
    (attrs : Assoc (Option DVal)) : List String :=
  (attrs.filter (fun av => route av.1 av.2)).map Prod.fst

/-- The entries the `set` reducer keeps in `toSet`. -/
def routedSet (route : String → Option DVal → Bool)
    (attrs : Assoc (Option DVal)) : AttrMap :=
  attrs.filterMap (fun av =>
    if route av.1 av.2 then none else av.2.map (fun v => (av.1, v)))

/-- Common body of `UpdateBuilder.set`: split `attrs` by the routing test,
merge the kept entries (validated by the external partial schema, a black
box) into `actions.set`, append the routed keys to `actions.remove`. -/
def applySetCall (route : String → Option DVal → Bool) (actions : UpdateActions)
    (attrs : Assoc (Option DVal)) : UpdateActions :=
  let toRemove := routedRemove route attrs
  let toSet := routedSet route attrs
  let actions1 := if toSet.isEmpty then actions
    else { actions with set := some (assignA (actions.set.getD []) toSet) }
  if toRemove.isEmpty then actions1
  else { actions1 with remove := some (actions1.remove.getD [] ++ toRemove) }

/-- `UpdateBuilder.set` (V2 revision). -/
def setV2 (actions : UpdateActions) (attrs : Assoc (Option DVal)) : UpdateActions :=
  applySetCall (fun _ v => emptyRouteV2 v) actions attrs

/-- `UpdateBuilder.set` (V3 revision, schema-aware). -/
def setV3 (schema : SchemaInfo) (actions : UpdateActions)
    (attrs : Assoc (Option DVal)) : UpdateActions :=
  applySetCall (emptyRouteV3 schema) actions attrs

/-! ### `createExpectedNewItem` and `execute` -/

/-- JavaScript insertion into a native `Set`. -/
def jsSetInsert (l : List String) (x : String) : List String :=
  if x ∈ l then l else l ++ [x]

/-- `new Set([...currentSet, ...value])`. -/
def jsSetUnion (cs vs : List String) : List String :=
  vs.foldl jsSetInsert cs

/-- The ADD merge of `createExpectedNewItem`:
`currentValue = expectedNewItem[attr] ?? 0`; a numeric delta uses the
JavaScript `+` (number addition, or string concatenation when the current
value is a string, or `"[object Set]"` coercion); a `Set` delta unions; any
other delta leaves the item untouched. -/
def jsAddMerge (current : Option DVal) (value : DVal) : Option DVal :=
  match value with
  | .num d =>
    some (match current.getD (.num 0) with
      | .num n => .num (n + d)
      | .str s => .str (s ++ toString d)
      | .setv _ => .str ("[object Set]" ++ toString d))
  | .setv vs =>
    some (.setv (jsSetUnion
      (match current with
        | some (.setv cs) => cs
        | _ => []) vs))
  | .str _ => none

/-- `UpdateBuilder.createExpectedNewItem`: fetch the current item (supplied
here as the `get` result), overlay the `set` entries, delete the `remove`
fields, apply ADD merges and DELETE set-differences; the final
`schema.parse` is the external validator (identity). -/
def createExpectedNewItem (actions : UpdateActions) (existing : Option AttrMap) :
    Except String AttrMap :=
  match existing with
  | none => .error "Item not found"
  | some existingItem =>
    let m0 := assignA existingItem (actions.set.getD [])
    let m1 := (actions.remove.getD []).foldl delA m0
    let m2 := (actions.add.getD []).foldl (fun m av =>
      match jsAddMerge (getA m av.1) av.2 with
      | some v => setA m av.1 v
      | none => m) m1
    let m3 := (actions.delete.getD []).foldl (fun m av =>
      match av.2, getA m av.1 with
      | .setv vs, some (.setv cs) => setA m av.1 (.setv (cs.filter (fun c => !vs.contains c)))
      | _, _ => m) m2
    .ok m3

/-- A dispatched `UpdateCommand` / transactional `Update` item (the table
name, identical for every operation of one `BetterDDB` instance, is
omitted). -/
structure UpdateCmd where
  key : AttrMap
  updateExpression : String
  attributeNames : Assoc String
  attributeValues : Option AttrMap
  conditionExpression : Option String
  deriving DecidableEq, Repr

/-- A `TransactWriteItem`: the update item this builder contributes, or an
opaque caller-supplied extra item. -/
inductive TxItem where
  | update : UpdateCmd → TxItem
  | other : Nat → TxItem
  deriving DecidableEq, Repr

/-- `if (this.condition?.expression)` — an absent condition or an empty
expression string (JavaScript falsy) attaches no `ConditionExpression`. -/
def condExpr? (condition : Option UpdateCondition) : Option String :=
  match condition with
  | some c => if c.expression = "" then none else some c.expression
  | none => none

/-- The storage operation(s) dispatched by `execute`. -/
inductive Dispatch where
  | singleUpdate : UpdateCmd → Dispatch
  | transactWrite : List TxItem → Dispatch
  deriving DecidableEq, Repr

/-- Observable outcome of `execute` up to the dispatch boundary: a
dispatched storage operation, or the no-op that returns the existing item
without writing. -/
inductive ExecResult where
  | dispatched : Dispatch → ExecResult
  | noop : AttrMap → ExecResult
  deriving DecidableEq, Repr

/-- `UpdateBuilder.toTransactUpdate` (V3 revision). -/
def toTransactUpdateV3 (cfg : KeysConfig) (key : AttrMap)
    (actions : UpdateActions) (condition : Option UpdateCondition)
    (newItemForIndexes : AttrMap) : Except String TxItem :=
  match buildExpressionV3 cfg actions condition (some newItemForIndexes) with
  | .error e => .error e
  | .ok c => .ok (.update
      { key := buildKey cfg key
        updateExpression := c.updateExpression
        attributeNames := c.attributeNames
        attributeValues := c.attributeValues
        conditionExpression := condExpr? condition })

/-- `UpdateBuilder.execute` (V3 revision): compute the expected new item
from the current one, inject `updatedAt` when timestamps are enabled, then
either fold into a transaction with the caller's extra items or dispatch a
single `UpdateCommand`; the catch clause recovers the existing item only
when the error message equals its hyphen-spelled literal (the V3
`buildExpression` throws the en-dash spelling).  The post-dispatch
read-back is beyond the dispatch boundary modeled here. -/
def executeV3 (cfg : KeysConfig) (key : AttrMap) (actions : UpdateActions)
    (condition : Option UpdateCondition) (extraTransactItems : List TxItem)
    (timestamps : Bool) (now : String) (existing : Option AttrMap) :
    Except String ExecResult :=
  match createExpectedNewItem actions existing with
  | .error e => .error e
  | .ok expectedNewItem =>
    let actions1 := if timestamps then
        { actions with set := some (setA (actions.set.getD []) "updatedAt" (.str now)) }
      else actions
    if extraTransactItems ≠ [] then
      match toTransactUpdateV3 cfg key actions1 condition expectedNewItem with
      | .error e => .error e
      | .ok myTransactItem =>
        .ok (.dispatched (.transactWrite (extraTransactItems ++ [myTransactItem])))
    else
      match buildExpressionV3 cfg actions1 condition (some expectedNewItem) with
      | .error e =>
        if e = "No attributes to update - all values were empty or undefined" then
          match existing with
          | some it => .ok (.noop it)
          | none => .error "Item not found"
        else .error e
      | .ok c =>
        .ok (.dispatched (.singleUpdate
          { key := buildKey cfg key
            updateExpression := c.updateExpression
            attributeNames := c.attributeNames
            attributeValues := c.attributeValues
            conditionExpression := condExpr? condition }))

/-- `UpdateBuilder.execute` (V2 revision): inject `updatedAt` when
timestamps are enabled, then transaction path (uncaught `buildExpression`
error) or single-update path whose catch recovers the existing item when
the `No attributes to update` error (hyphen spelling, matching what this
revision's `buildExpression` throws) is raised.  The post-dispatch
read-back and `rebuildIndexes` follow-up are beyond the dispatch boundary
modeled here. -/
def executeV2 (cfg : KeysConfig) (key : AttrMap) (actions : UpdateActions)
    (condition : Option UpdateCondition) (extraTransactItems : List TxItem)
    (timestamps : Bool) (now : String) (existing : Option AttrMap) :
    Except String ExecResult :=
  let actions1 := if timestamps then
      { actions with set := some (setA (actions.set.getD []) "updatedAt" (.str now)) }
    else actions
  if extraTransactItems ≠ [] then
    match buildExpressionV2 actions1 condition with
    | .error e => .error e
    | .ok c =>
      .ok (.dispatched (.transactWrite (extraTransactItems ++
        [.update
          { key := buildKey cfg key
            updateExpression := c.updateExpression
            attributeNames := c.attributeNames
            attributeValues := c.attributeValues
            conditionExpression := condExpr? condition }])))
  else
    match buildExpressionV2 actions1 condition with
    | .error e =>
      if e = "No attributes to update - all values were empty or undefined" then
        match existing with
        | some it => .ok (.noop it)
        | none => .error "Item not found"
      else .error e
    | .ok c =>
      .ok (.dispatched (.singleUpdate
        { key := buildKey cfg key
          updateExpression := c.updateExpression
          attributeNames := c.attributeNames
          attributeValues := c.attributeValues
          conditionExpression := condExpr? condition }))

/-! ## In-place update of the aws-sdk-v2 `BetterDDB` class
(`src/betterddb.ts`: `update` and `buildTransactUpdate` share this
expression construction). -/

/-- `keyFieldNames`: the storage attribute names of the primary and (if
configured) sort key, excluded from updates. -/
def keyFieldNames (cfg : KeysConfig) : List String :=
  [cfg.primary.name] ++ (match cfg.sort with
    | some sk => [sk.name]
    | none => [])

/-- The compiled pieces of `BetterDDB.update` /
`BetterDDB.buildTransactUpdate`.  `assignments` records, for each emitted
`#a = :a` part, the storage attribute and bound value the placeholder pair
resolves to (by the construction of `ExpressionAttributeNames` /
`ExpressionAttributeValues` in the same loop). -/
structure OldCompiled where
  updateParts : List String
  conditionParts : List String
  names : Assoc String
  values : AttrMap
  assignments : AttrMap
  deriving DecidableEq, Repr

/-- The expression-building prefix of `BetterDDB.update`: skip entries
named like a key attribute, mint `#attr` / `:attr` placeholders, then the
`autoTimestamps` and `expectedVersion` additions. -/
def buildUpdateCompiledOld (cfg : KeysConfig) (update : AttrMap)
    (autoTimestamps : Bool) (now : String) (expectedVersion : Option Int) :
    OldCompiled :=
  let upd := update.filter (fun av => !(keyFieldNames cfg).contains av.1)
  let names := upd.foldl (fun m av => setA m ("#" ++ av.1) av.1) ([] : Assoc String)
  let values := upd.foldl (fun m av => setA m (":" ++ av.1) av.2) ([] : AttrMap)
  let parts := assignFragments "#" ":" upd
  let assigns := upd
  let names := if autoTimestamps then setA names "#updatedAt" "updatedAt" else names
  let values := if autoTimestamps then setA values ":updatedAt" (.str now) else values
  let parts := if autoTimestamps then parts ++ ["#updatedAt = :updatedAt"] else parts
  let assigns := if autoTimestamps then setA assigns "updatedAt" (.str now) else assigns
  match expectedVersion with
  | some ev =>
    { updateParts := parts ++ ["#version = :newVersion"]
      conditionParts := ["#version = :expectedVersion"]
      names := setA names "#version" "version"
      values := setA (setA values ":expectedVersion" (.num ev)) ":newVersion" (.num (ev + 1))
      assignments := setA assigns "version" (.num (ev + 1)) }
  | none =>
    { updateParts := parts
      conditionParts := []
      names := names
      values := values
      assignments := assigns }

/-- `BetterDDB.update`'s expression, with its `No attributes provided to
update` guard. -/
def oldUpdateExpression (cfg : KeysConfig) (update : AttrMap)
    (autoTimestamps : Bool) (now : String) (expectedVersion : Option Int) :
    Except String (String × OldCompiled) :=
  let c := buildUpdateCompiledOld cfg update autoTimestamps now expectedVersion
  if c.updateParts = [] then .error "No attributes provided to update"
  else .ok ("SET " ++ String.intercalate ", " c.updateParts, c)

/-- Store-side semantics of a SET-only update expression: each resolved
assignment overwrites its attribute; every other attribute of the item is
untouched. -/
def applyAssignments (item : AttrMap) (assignments : AttrMap) : AttrMap :=
  assignA item assignments

/-! ## Batch chunker (`BetterDDB.batchWrite` / `BetterDDB.batchGet`) -/

/-- A `WriteRequest`: `{ PutRequest: { Item } }` or
`{ DeleteRequest: { Key } }`. -/
inductive WriteReq where
  | putReq : AttrMap → WriteReq
  | deleteReq : AttrMap → WriteReq
  deriving DecidableEq, Repr

/-- `batchWrite`'s combined request list: puts (item merged with computed
key and index attributes, validated by the external schema) followed by
deletes (computed keys). -/
def batchWriteRequests (cfg : KeysConfig) (puts deletes : List AttrMap) :
    List WriteReq :=
  puts.map (fun item =>
    .putReq (assignA (assignA item (buildKey cfg item)) (buildIndexes cfg item))) ++
  deletes.map (fun rawKey => .deleteReq (buildKey cfg rawKey))

/-- The `for (let i = 0; i < l.length; i += n)` slicing loop, with the list
length as structural fuel. -/
def chunkListAux {α : Type} : Nat → Nat → List α → List (List α)
  | 0, _, _ => []
  | _ + 1, _, [] => []
  | fuel + 1, n, a :: l => (a :: l).take n :: chunkListAux fuel n ((a :: l).drop n)

/-- Partition a list into successive slices of `n` elements. -/
def chunkList {α : Type} (n : Nat) (l : List α) : List (List α) :=
  chunkListAux l.length n l

/-- The groups of at most 25 write requests submitted by `batchWrite`. -/
def batchWriteChunks (cfg : KeysConfig) (puts deletes : List AttrMap) :
    List (List WriteReq) :=
  chunkList 25 (batchWriteRequests cfg puts deletes)

/-- The key lists dispatched by `batchGet`: the raw keys mapped through
`buildKey` — verbatim, in order — then sliced into groups of 100. -/
def batchGetKeyChunks (cfg : KeysConfig) (rawKeys : List AttrMap) :
    List (List AttrMap) :=
  chunkList 100 (rawKeys.map (buildKey cfg))

/-- The retry loop of `batchWrite` for one chunk.  The store is an oracle
list giving the `UnprocessedItems` response to each successive `batchWrite`
call.  The returned trace is the sequence of submitted batches: the chunk
itself, then every non-empty unprocessed response resubmitted (after the
1000 ms backoff, whose real-time delay is not modeled), stopping at the
first empty response; `none` when the oracle is exhausted while the store
still reports unprocessed items (the loop has not terminated). -/
def retryRun : List (List WriteReq) → List WriteReq → Option (List (List WriteReq))
  | [], _first => none
  | r :: rest, first =>
    if r.isEmpty then some [first]
    else
      match retryRun rest r with
      | some trace => some (first :: trace)
      | none => none

/-! ## Placeholder-token occurrences of a compiled update statement (C2) -/

/-- Every value-placeholder occurrence of a full compiled update statement,
paired with the underlying runtime value it stands for: the `:v_attr`
tokens minted by `buildExpression` for the SET/ADD/DELETE entries, and the
caller-declared condition value bindings merged into the same statement. -/
def updateValOccurrencesV2 (actions : UpdateActions)
    (condition : Option UpdateCondition) : AttrMap :=
  (actions.set.getD [] ++ actions.add.getD [] ++ actions.delete.getD []).map
    (fun av => (":v_" ++ av.1, av.2)) ++
  (match condition with
    | some c => c.attributeValues
    | none => [])

/-- Every attribute-name-placeholder occurrence of a full compiled update
statement, paired with the underlying attribute name: the `#n_attr` tokens
minted for the SET/REMOVE/ADD/DELETE entries, and the caller-declared
condition name bindings merged into the same statement. -/
def updateNameOccurrencesV2 (actions : UpdateActions)
    (condition : Option UpdateCondition) : Assoc String :=
  (keysA (actions.set.getD []) ++ actions.remove.getD [] ++
    keysA (actions.add.getD []) ++ keysA (actions.delete.getD [])).map
    (fun a => ("#n_" ++ a, a)) ++
  (match condition with
    | some c => c.attributeNames
    | none => [])

/-- Token uniqueness in the sense of the specification: no two occurrences
with the same placeholder token stand for distinct underlying names/values. -/
def TokenConsistent {α : Type} (l : Assoc α) : Prop :=
  ∀ p ∈ l, ∀ q ∈ l, p.1 = q.1 → p.2 = q.2

instance {α : Type} [DecidableEq α] (l : Assoc α) :
    Decidable (TokenConsistent l) := by
  unfold TokenConsistent; infer_instance

/-! ## Concrete instances used by the witnesses and counterexamples -/

/-- A table keyed directly by the `id` field, no sort key, no indexes. -/
def cfgSimple : KeysConfig :=
  { primary := { name := "pk", definition := .field "id" }
    sort := none
    gsis := [] }

/-- The test tables' configuration: computed primary key `USER#{id}` and
sort key `EMAIL#{email}`, no indexes. -/
def cfgUser : KeysConfig :=
  { primary := { name := "pk", definition := .build (fun raw => "USER#" ++ jsString (getA raw "id")) }
    sort := some { name := "sk", definition := .build (fun raw => "EMAIL#" ++ jsString (getA raw "email")) }
    gsis := [] }

/-- The raw key of the stored example user. -/
def userKey : AttrMap := [("id", .str "simple-1"), ("email", .str "simple@example.com")]

/-- The stored example user item. -/
def userItem : AttrMap :=
  [("id", .str "simple-1"), ("name", .str "Simple Key User"),
   ("email", .str "simple@example.com")]

/-- An update intent that changes the field feeding the primary key. -/
def renameActions : UpdateActions := { set := some [("id", .str "simple-1-new")] }

/-- An update intent whose four action sets are all empty. -/
def emptyActions : UpdateActions := {}

/-- A schema in which no field is optional. -/
def schemaAllRequired : SchemaInfo := { optionalFields := [] }

/-- A schema in which only `nick` is optional. -/
def schemaNickOptional : SchemaInfo := { optionalFields := ["nick"] }

/-- A `set` argument object mixing an undefined value, an empty-after-trim
string and a plain value. -/
def attrsSample : Assoc (Option DVal) :=
  [("a", none), ("b", some (.str " ")), ("c", some (.num 5))]

/-- A conflicting builder state for the token-collision counterexample:
field `a` is assigned the number `1` while the caller condition declares
the pre-update value `2` under the same token `:v_a` that the SET clause
mints for `a`. -/
def collideActions : UpdateActions := { set := some [("a", .num 1)] }

def collideCondition : UpdateCondition :=
  { expression := "#c_a > :v_a"
    attributeValues := [(":v_a", .num 2)]
    attributeNames := [("#c_a", "a")] }

/-- A caller condition whose placeholder tokens do not collide with any
minted `#n_` / `:v_` token. -/
def freshCondition : UpdateCondition :=
  { expression := "#c_age > :c_age"
    attributeValues := [(":c_age", .num 2)]
    attributeNames := [("#c_age", "age")] }

/-- A table with one GSI keyed by `EMAIL#{email}`, primary key from `id`
only. -/
def cfgGsi : KeysConfig where
  primary := { name := "pk", definition := .build (fun raw => "USER#" ++ jsString (getA raw "id")) }
  sort := none
  gsis := [("EmailIndex",
    { name := "EmailIndex"
      primary := { name := "gsi1pk", definition := .build (fun raw => "EMAIL#" ++ jsString (getA raw "email")) }
      sort := none })]

/-- An update intent touching only the index-referenced `email` field. -/
def emailActions : UpdateActions := { set := some [("email", DVal.str "b@x.com")] }

def oldEmailItem : AttrMap := [("id", .str "u1"), ("email", .str "a@x.com")]

def newEmailItem : AttrMap := [("id", .str "u1"), ("email", .str "b@x.com")]

/-! ## Lemmas: record primitives -/

theorem getA_setA_self {α : Type} (m : Assoc α) (k : String) (v : α) :
    getA (setA m k v) k = some v := by
  induction m with
  | nil => simp [setA, getA]
  | cons hd t ih =>
    obtain ⟨k', v'⟩ := hd
    by_cases h : k' = k <;> simp [setA, getA, h, ih]

theorem getA_setA_ne {α : Type} (m : Assoc α) (k a : String) (v : α) (h : a ≠ k) :
    getA (setA m k v) a = getA m a := by
  have hka : k ≠ a := fun hh => h hh.symm
  induction m with
  | nil => simp [setA, getA, hka]
  | cons hd t ih =>
    obtain ⟨k', v'⟩ := hd
    by_cases hk : k' = k
    · subst hk
      simp [setA, getA, hka]
    · simp [setA, getA, hk, ih]

theorem getA_assignA_not_mem {α : Type} (src target : Assoc α) (a : String)
    (h : a ∉ keysA src) : getA (assignA target src) a = getA target a := by
  induction src generalizing target with
  | nil => simp [assignA]
  | cons hd t ih =>
    obtain ⟨k, v⟩ := hd
    simp only [keysA, List.map_cons, List.mem_cons] at h
    push_neg at h
    have step : assignA target ((k, v) :: t) = assignA (setA target k v) t := rfl
    rw [step, ih (setA target k v) (by simpa [keysA] using h.2),
      getA_setA_ne target k a v h.1]

theorem mem_keysA_setA {α : Type} (m : Assoc α) (k a : String) (v : α) :
    a ∈ keysA (setA m k v) ↔ a ∈ keysA m ∨ a = k := by
  induction m with
  | nil => simp [setA, keysA]
  | cons hd t ih =>
    obtain ⟨k', v'⟩ := hd
    by_cases h : k' = k
    · subst h
      simp [setA, keysA]
      tauto
    · simp [setA, keysA, h] at ih ⊢
      tauto

theorem nodup_keys_functional {α : Type} {l : Assoc α} (h : (keysA l).Nodup)
    {a : String} {v v' : α} (h1 : (a, v) ∈ l) (h2 : (a, v') ∈ l) : v = v' := by
  induction l with
  | nil => cases h1
  | cons hd t ih =>
    obtain ⟨ka, va⟩ := hd
    simp only [keysA, List.map_cons, List.nodup_cons] at h
    rcases List.mem_cons.mp h1 with e1 | e1 <;> rcases List.mem_cons.mp h2 with e2 | e2
    · exact (Prod.mk.inj e1).2.trans (Prod.mk.inj e2).2.symm
    · exfalso
      apply h.1
      rw [← (Prod.mk.inj e1).1]
      exact List.mem_map_of_mem Prod.fst e2
    · exfalso
      apply h.1
      rw [← (Prod.mk.inj e2).1]
      exact List.mem_map_of_mem Prod.fst e1
    · exact ih h.2 e1 e2

theorem getA_assignA_of_nodup {α : Type} (src : Assoc α) (base : Assoc α)
    (k : String) (v : α) (hn : (keysA src).Nodup) (hm : (k, v) ∈ src) :
    getA (assignA base src) k = some v := by
  revert hn hm
  induction src generalizing base with
  | nil => intro _ hm; cases hm
  | cons hd t ih =>
    intro hn hm
    obtain ⟨ka, va⟩ := hd
    have step : assignA base ((ka, va) :: t) = assignA (setA base ka va) t := rfl
    simp only [keysA, List.map_cons, List.nodup_cons] at hn
    rcases List.mem_cons.mp hm with e | e
    · obtain ⟨e1, e2⟩ := Prod.mk.inj e
      subst e1; subst e2
      rw [step, getA_assignA_not_mem t _ k (by simpa [keysA] using hn.1),
        getA_setA_self]
    · rw [step]
      exact ih (setA base ka va) hn.2 e

/-! ## Lemmas: strings and placeholder tokens -/

theorem string_data_append (s t : String) : (s ++ t).data = s.data ++ t.data := by
  obtain ⟨a⟩ := s; obtain ⟨b⟩ := t; rfl

theorem string_append_cancel_left {s t u : String} (h : s ++ t = s ++ u) : t = u := by
  obtain ⟨a⟩ := s; obtain ⟨b⟩ := t; obtain ⟨c⟩ := u
  have hd : a ++ b = a ++ c := congrArg String.data h
  exact congrArg String.mk (List.append_cancel_left hd)

theorem string_append_cancel_right {s t u : String} (h : t ++ s = u ++ s) : t = u := by
  obtain ⟨a⟩ := s; obtain ⟨b⟩ := t; obtain ⟨c⟩ := u
  have hd : b ++ a = c ++ a := congrArg String.data h
  exact congrArg String.mk (List.append_cancel_right hd)

theorem string_append_assoc (a b c : String) : a ++ b ++ c = a ++ (b ++ c) := by
  obtain ⟨x⟩ := a; obtain ⟨y⟩ := b; obtain ⟨z⟩ := c
  exact congrArg String.mk (List.append_assoc x y z)

theorem string_append_head_ne {p q : String} {c d : Char} {cs ds : List Char}
    (hp : p.data = c :: cs) (hq : q.data = d :: ds) (hcd : c ≠ d) (x y : String) :
    p ++ x ≠ q ++ y := by
  intro h
  have h2 := congrArg String.data h
  rw [string_data_append, string_data_append, hp, hq] at h2
  simp only [List.cons_append] at h2
  exact hcd (by injection h2)

/-! ## Lemmas: folds of `setA` -/

theorem getA_foldl_setA_not_mem {α β : Type} (g : α → String) (hv : α → β)
    (xs : List α) (m : Assoc β) (t : String) (h : ∀ x ∈ xs, g x ≠ t) :
    getA (xs.foldl (fun m x => setA m (g x) (hv x)) m) t = getA m t := by
  induction xs generalizing m with
  | nil => rfl
  | cons hd tl ih =>
    rw [List.foldl_cons,
      ih (setA m (g hd) (hv hd)) (fun x hx => h x (List.mem_cons_of_mem hd hx)),
      getA_setA_ne m (g hd) t (hv hd)
        (fun hh => h hd (List.mem_cons_self hd tl) hh.symm)]

theorem getA_foldl_setA_mem {α β : Type} (g : α → String) (hv : α → β)
    (xs : List α) (x : α) (hx : x ∈ xs) (hn : (xs.map g).Nodup) (m : Assoc β) :
    getA (xs.foldl (fun m y => setA m (g y) (hv y)) m) (g x) = some (hv x) := by
  revert hx hn
  induction xs generalizing m with
  | nil => intro hx _; cases hx
  | cons hd tl ih =>
    intro hx hn
    rw [List.foldl_cons]
    simp only [List.map_cons, List.nodup_cons] at hn
    rcases List.mem_cons.mp hx with h | h
    · subst h
      rw [getA_foldl_setA_not_mem g hv tl _ (g x)
        (fun y hy hgy => hn.1 (hgy ▸ List.mem_map_of_mem g hy)), getA_setA_self]
    · exact ih (setA m (g hd) (hv hd)) h hn.2

theorem keys_filterMap_sublist {α β : Type} (f : (String × α) → Option (String × β))
    (hf : ∀ p q, f p = some q → q.1 = p.1) (l : Assoc α) :
    ((l.filterMap f).map Prod.fst).Sublist (l.map Prod.fst) := by
  induction l with
  | nil => simp
  | cons a t ih =>
    simp only [List.filterMap_cons]
    cases hfa : f a with
    | none =>
      simp only [List.map_cons]
      exact ih.cons a.1
    | some b =>
      simp only [List.map_cons]
      rw [hf a b hfa]
      exact ih.cons₂ a.1

/-! ## Lemmas: chunking and the batch retry loop -/

theorem chunkListAux_join {α : Type} (n : Nat) (hn : 0 < n) :
    ∀ (fuel : Nat) (l : List α), l.length ≤ fuel →
      (chunkListAux fuel n l).flatten = l := by
  intro fuel
  induction fuel with
  | zero =>
    intro l hl
    have : l = [] := List.eq_nil_of_length_eq_zero (Nat.le_zero.mp hl)
    subst this; rfl
  | succ fuel ih =>
    intro l hl
    cases l with
    | nil => rfl
    | cons a t =>
      simp only [chunkListAux, List.flatten_cons]
      rw [ih ((a :: t).drop n) (by
        rw [List.length_drop]
        simp only [List.length_cons] at hl ⊢
        omega), List.take_append_drop]

theorem chunkListAux_length_le {α : Type} (n : Nat) :
    ∀ (fuel : Nat) (l : List α), ∀ c ∈ chunkListAux fuel n l, c.length ≤ n := by
  intro fuel
  induction fuel with
  | zero => intro l c hc; simp [chunkListAux] at hc
  | succ fuel ih =>
    intro l c hc
    cases l with
    | nil => simp [chunkListAux] at hc
    | cons a t =>
      simp only [chunkListAux, List.mem_cons] at hc
      rcases hc with rfl | hc
      · simp [List.length_take]
      · exact ih _ c hc

theorem chunkList_flatten {α : Type} (n : Nat) (hn : 0 < n) (l : List α) :
    (chunkList n l).flatten = l :=
  chunkListAux_join n hn l.length l le_rfl

theorem chunkList_length_le {α : Type} (n : Nat) (l : List α) :
    ∀ c ∈ chunkList n l, c.length ≤ n :=
  chunkListAux_length_le n l.length l

theorem retryRun_terminates (rest : List (List WriteReq)) :
    ∀ (nes : List (List WriteReq)) (first : List WriteReq),
      (∀ r ∈ nes, r ≠ []) →
      retryRun (nes ++ [] :: rest) first = some (first :: nes) := by
  intro nes
  induction nes with
  | nil => intro first _; rfl
  | cons r rs ih =>
    intro first hne
    obtain ⟨x, xs, rfl⟩ := List.exists_cons_of_ne_nil (hne r (List.mem_cons_self r rs))
    simp only [List.cons_append, retryRun, List.isEmpty_cons, Bool.false_eq_true,
      if_false, List.append_eq]
    rw [ih (x :: xs) (fun y hy => hne y (List.mem_cons_of_mem _ hy))]

theorem retryRun_none (oracle : List (List WriteReq))
    (hall : ∀ r ∈ oracle, r ≠ []) :
    ∀ first, retryRun oracle first = none := by
  induction oracle with
  | nil => intro first; rfl
  | cons r rest ih =>
    intro first
    obtain ⟨x, xs, hx⟩ := List.exists_cons_of_ne_nil (hall r (List.mem_cons_self r rest))
    subst hx
    simp only [retryRun, List.isEmpty_cons, Bool.false_eq_true, if_false]
    rw [ih (fun y hy => hall y (List.mem_cons_of_mem _ hy)) (x :: xs)]


/-! ## Claim theorems -/

/-- C4: for every operator in the closed set {equals, not-equals, less-than,
less-or-equal, greater-than, greater-or-equal, begins-with, between,
contains} and given name/value placeholder tokens, `getOperatorExpression`
emits exactly the matching fragment. -/
theorem operator_expression_fragments (n v v2 : String) :
    getOperatorExpression .eq n v = .ok (n ++ " = " ++ v) ∧
    getOperatorExpression .ne n v = .ok (n ++ " <> " ++ v) ∧
    getOperatorExpression .lt n v = .ok (n ++ " < " ++ v) ∧
    getOperatorExpression .le n v = .ok (n ++ " <= " ++ v) ∧
    getOperatorExpression .gt n v = .ok (n ++ " > " ++ v) ∧
    getOperatorExpression .ge n v = .ok (n ++ " >= " ++ v) ∧
    getOperatorExpression .beginsWith n v = .ok ("begins_with(" ++ n ++ ", " ++ v ++ ")") ∧
    getOperatorExpression .between n v (some v2) =
      .ok (n ++ " BETWEEN " ++ v ++ " AND " ++ v2) ∧
    getOperatorExpression .contains n v = .ok ("contains(" ++ n ++ ", " ++ v ++ ")") :=
  ⟨rfl, rfl, rfl, rfl, rfl, rfl, rfl, rfl, rfl⟩

/-- C5: compiling a `between` condition with anything other than exactly two
bound values is a caller error — `getOperatorExpression` without a second
value token, `ScanBuilder.where` and `QueryBuilder.where` with a non-array
or wrong-arity tuple all throw before any expression fragment is emitted
(and before `execute`, the only place a storage call is made, can run). -/
theorem between_arity_is_caller_error
    (n v : String) (st : ScanState) (qst : QueryState) (cfg : KeysConfig)
    (index : Option GSIConfig) (attrName : String) (svals : JSVals)
    (qvals : QWhereVals)
    (hs : ∀ l, svals = JSVals.arr l → l.length ≠ 2)
    (hq : ∀ l, qvals = QWhereVals.arr l → l.length ≠ 2) :
    getOperatorExpression .between n v none =
      .error "The 'between' operator requires two value keys" ∧
    (∃ e, scanWhere st attrName .between svals = .error e) ∧
    (∃ e, queryWhere cfg index qst .between qvals = .error e) := by
  refine ⟨rfl, ?_, ?_⟩
  · cases svals with
    | undefinedVal => exact ⟨_, rfl⟩
    | single d => exact ⟨_, rfl⟩
    | arr l =>
      match l with
      | [] => exact ⟨_, rfl⟩
      | [a] => exact ⟨_, rfl⟩
      | [a, b] => exact absurd rfl (hs [a, b] rfl)
      | a :: b :: c :: r => exact ⟨_, rfl⟩
  · unfold queryWhere
    cases h : sortKeyNameOf cfg index with
    | none => exact ⟨_, rfl⟩
    | some sortKeyName =>
      cases qvals with
      | obj m => exact ⟨_, rfl⟩
      | arr l =>
        match l with
        | [] => exact ⟨_, rfl⟩
        | [a] => exact ⟨_, rfl⟩
        | [a, b] => exact absurd rfl (hq [a, b] rfl)
        | a :: b :: c :: r => exact ⟨_, rfl⟩

theorem between_arity_is_caller_error_witness :
    getOperatorExpression .between "#a" ":a" none =
      .error "The 'between' operator requires two value keys" ∧
    (∃ e, scanWhere ⟨[], [], []⟩ "f" .between (JSVals.arr [DVal.num 1]) = .error e) ∧
    (∃ e, queryWhere cfgSimple none ⟨[], [], [], []⟩ .between
      (QWhereVals.arr []) = .error e) :=
  between_arity_is_caller_error "#a" ":a" ⟨[], [], []⟩ ⟨[], [], [], []⟩ cfgSimple
    none "f" (JSVals.arr [DVal.num 1]) (QWhereVals.arr [])
    (by intro l h; cases h; decide)
    (by intro l h; cases h; decide)

/-- C7 counterexample: `batchGet` with a duplicated raw key dispatches the
duplicate to the store verbatim — the dispatched key list for two identical
input keys holds two identical built keys, so the input was not
de-duplicated before dispatch. -/
theorem batchGet_duplicate_keys_dispatched_twice :
    batchGetKeyChunks cfgSimple [[("id", DVal.str "u1")], [("id", DVal.str "u1")]] =
      [[[("pk", DVal.str "u1")], [("pk", DVal.str "u1")]]] ∧
    ¬ ([[("pk", DVal.str "u1")], [("pk", DVal.str "u1")]] : List AttrMap).Nodup :=
  ⟨by decide, by decide⟩

/-- C7 amended: `batchGet` maps every input key occurrence through
`buildKey` and dispatches the resulting list verbatim (duplicates included,
order preserved), sliced into store groups of at most 100 keys; no
de-duplication happens before dispatch. -/
theorem batchGet_dispatch_preserves_input_occurrences
    (cfg : KeysConfig) (rawKeys : List AttrMap) :
    (batchGetKeyChunks cfg rawKeys).flatten = rawKeys.map (buildKey cfg) ∧
    ∀ c ∈ batchGetKeyChunks cfg rawKeys, c.length ≤ 100 :=
  ⟨chunkList_flatten 100 (by norm_num) _, chunkList_length_le 100 _⟩

/-- C8: `batchWrite` partitions the combined put/delete requests into
groups of at most 25 whose in-order concatenation is exactly the request
list, and its retry loop resubmits precisely the unprocessed items the
store reported, stopping exactly at the first empty unprocessed response —
if the store never reports an empty set the loop does not terminate within
any finite response oracle. -/
theorem batchWrite_chunks_and_retries
    (cfg : KeysConfig) (puts deletes : List AttrMap)
    (first : List WriteReq) (nes rest oracle : List (List WriteReq))
    (hne : ∀ r ∈ nes, r ≠ []) (hall : ∀ r ∈ oracle, r ≠ []) :
    (∀ c ∈ batchWriteChunks cfg puts deletes, c.length ≤ 25) ∧
    (batchWriteChunks cfg puts deletes).flatten = batchWriteRequests cfg puts deletes ∧
    retryRun (nes ++ [] :: rest) first = some (first :: nes) ∧
    retryRun oracle first = none :=
  ⟨chunkList_length_le 25 _, chunkList_flatten 25 (by norm_num) _,
    retryRun_terminates rest nes first hne, retryRun_none oracle hall first⟩

theorem batchWrite_chunks_and_retries_witness :
    (∀ c ∈ batchWriteChunks cfgSimple [[("id", DVal.str "a")]] [[("id", DVal.str "b")]],
      c.length ≤ 25) ∧
    (batchWriteChunks cfgSimple [[("id", DVal.str "a")]] [[("id", DVal.str "b")]]).flatten =
      batchWriteRequests cfgSimple [[("id", DVal.str "a")]] [[("id", DVal.str "b")]] ∧
    retryRun ([[WriteReq.deleteReq []]] ++ [] :: []) [WriteReq.putReq []] =
      some ([WriteReq.putReq []] :: [[WriteReq.deleteReq []]]) ∧
    retryRun [[WriteReq.deleteReq []]] [WriteReq.putReq []] = none :=
  batchWrite_chunks_and_retries cfgSimple [[("id", DVal.str "a")]]
    [[("id", DVal.str "b")]] [WriteReq.putReq []] [[WriteReq.deleteReq []]] []
    [[WriteReq.deleteReq []]] (by decide) (by decide)

/-- C1 (code bug): an update intent that changes the field feeding the
primary key — the stored item `userItem` updated with `set {id:
"simple-1-new"}` under the `USER#{id}` / `EMAIL#{email}` key definitions —
is dispatched by `UpdateBuilder.execute` as a single in-place
`UpdateCommand` under the OLD key, not as an atomic transaction holding a
Put of the new entity and a Delete of the old one; the second conjunct
shows the key value does change for this intent, so the relocation case
demanded by the claim (and by the repository's own tests) applies. -/
theorem key_change_update_dispatches_single_inplace_update :
    executeV3 cfgUser userKey renameActions none [] false "" (some userItem) =
      .ok (.dispatched (.singleUpdate
        { key := [("pk", .str "USER#simple-1"), ("sk", .str "EMAIL#simple@example.com")]
          updateExpression := "SET #n_id = :v_id"
          attributeNames := [("#n_id", "id")]
          attributeValues := some [(":v_id", .str "simple-1-new")]
          conditionExpression := none })) ∧
    buildKey cfgUser (assignA userItem [("id", DVal.str "simple-1-new")]) ≠
      buildKey cfgUser userKey :=
  ⟨rfl, by decide⟩

theorem isEmpty_false_of_mem {α : Type} {l : List α} {x : α} (h : x ∈ l) :
    l.isEmpty = false := by
  cases l with
  | nil => cases h
  | cons a t => rfl

theorem v2Clauses_empty (actions : UpdateActions)
    (hset : actions.set.getD [] = []) (hrem : actions.remove.getD [] = [])
    (hadd : actions.add.getD [] = []) (hdel : actions.delete.getD [] = []) :
    v2Clauses actions = [] := by
  unfold v2Clauses
  rw [hset, hrem, hadd, hdel]
  rfl

/-- The `buildExpression` of the V2 update builder raises its empty-update
error whenever all four action sets are empty, whatever condition bindings
were merged. -/
theorem buildExpressionV2_empty (actions : UpdateActions)
    (condition : Option UpdateCondition)
    (hset : actions.set.getD [] = []) (hrem : actions.remove.getD [] = [])
    (hadd : actions.add.getD [] = []) (hdel : actions.delete.getD [] = []) :
    buildExpressionV2 actions condition =
      .error "No attributes to update - all values were empty or undefined" := by
  unfold buildExpressionV2
  rw [v2Clauses_empty actions hset hrem hadd hdel]
  rfl

/-- C6 counterexample: the same empty update intent (all four action sets
empty, timestamps off) is a silent no-op returning the unchanged current
entity on the plain-update path, but an error on the transactional path of
the very same `execute` — two different policies on the two execution
paths. -/
theorem empty_update_noop_vs_error_by_path :
    executeV2 cfgUser userKey emptyActions none [] false "" (some userItem) =
      .ok (.noop userItem) ∧
    executeV2 cfgUser userKey emptyActions none [TxItem.other 0] false "" (some userItem) =
      .error "No attributes to update - all values were empty or undefined" :=
  ⟨rfl, rfl⟩

/-- C6 amended: with all four action sets empty and timestamps off, the V2
`execute` is a no-op returning the current entity (or an `Item not found`
error) on the plain path, and always fails with the empty-update error on
the transactional path; the policy is per-path, not uniform. -/
theorem empty_update_policy_per_path
    (cfg : KeysConfig) (key : AttrMap) (actions : UpdateActions)
    (condition : Option UpdateCondition) (extra : List TxItem)
    (existing : Option AttrMap) (now : String)
    (hset : actions.set.getD [] = []) (hrem : actions.remove.getD [] = [])
    (hadd : actions.add.getD [] = []) (hdel : actions.delete.getD [] = []) :
    (extra = [] → executeV2 cfg key actions condition extra false now existing =
      (match existing with
        | some it => Except.ok (ExecResult.noop it)
        | none => Except.error "Item not found")) ∧
    (extra ≠ [] → executeV2 cfg key actions condition extra false now existing =
      .error "No attributes to update - all values were empty or undefined") := by
  have hb := buildExpressionV2_empty actions condition hset hrem hadd hdel
  constructor
  · rintro rfl
    simp [executeV2, hb]
  · intro he
    simp [executeV2, hb, he]

theorem empty_update_policy_per_path_witness :
    (([TxItem.other 0] : List TxItem) = [] →
      executeV2 cfgSimple [] emptyActions none [TxItem.other 0] false "" (some []) =
      (match (some ([] : AttrMap)) with
        | some it => Except.ok (ExecResult.noop it)
        | none => Except.error "Item not found")) ∧
    (([TxItem.other 0] : List TxItem) ≠ [] →
      executeV2 cfgSimple [] emptyActions none [TxItem.other 0] false "" (some []) =
      .error "No attributes to update - all values were empty or undefined") :=
  empty_update_policy_per_path cfgSimple [] emptyActions none [TxItem.other 0]
    (some []) "" rfl rfl rfl rfl

/-- C10 counterexample: in the schema-aware `set` revision, an
empty-after-trim string supplied for a field the schema does not mark
optional is kept in the assignment action set (and validated), not routed
into the removal set. -/
theorem set_keeps_empty_string_for_required_field :
    setV3 schemaAllRequired emptyActions [("name", some (DVal.str " "))] =
      { set := some [("name", DVal.str " ")], remove := none, add := none,
        delete := none } := by
  decide

theorem applySetCall_remove_mem (route : String → Option DVal → Bool)
    (actions : UpdateActions) (attrs : Assoc (Option DVal)) (k : String)
    (v : Option DVal) (hm : (k, v) ∈ attrs) (hr : route k v = true) :
    k ∈ (applySetCall route actions attrs).remove.getD [] := by
  have hk : k ∈ routedRemove route attrs := by
    unfold routedRemove
    exact List.mem_map_of_mem _ (List.mem_filter.mpr ⟨hm, hr⟩)
  have hne : (routedRemove route attrs).isEmpty = false := isEmpty_false_of_mem hk
  simp only [applySetCall, hne, Bool.false_eq_true, if_false]
  cases h2 : (routedSet route attrs).isEmpty <;>
    simp only [Bool.false_eq_true, if_false, if_true, Option.getD_some] <;>
    exact List.mem_append_right _ hk

theorem mem_routedSet (route : String → Option DVal → Bool)
    (attrs : Assoc (Option DVal)) (k : String) (w : DVal)
    (hm : (k, some w) ∈ attrs) (hr : route k (some w) = false) :
    (k, w) ∈ routedSet route attrs := by
  unfold routedSet
  exact List.mem_filterMap.mpr ⟨(k, some w), hm, by simp [hr]⟩

theorem keys_routedSet_nodup (route : String → Option DVal → Bool)
    (attrs : Assoc (Option DVal)) (h : (keysA attrs).Nodup) :
    (keysA (routedSet route attrs)).Nodup := by
  unfold routedSet keysA
  refine List.Nodup.sublist (keys_filterMap_sublist _ ?_ attrs) h
  rintro ⟨pk, pv⟩ q hpq
  cases hroute : route pk pv
  · cases pv with
    | none => simp [hroute] at hpq
    | some v =>
      simp only [hroute, Bool.false_eq_true, if_false, Option.map_some] at hpq
      rw [← Option.some.inj hpq]
  · simp [hroute] at hpq

theorem applySetCall_set_getA (route : String → Option DVal → Bool)
    (actions : UpdateActions) (attrs : Assoc (Option DVal)) (k : String)
    (w : DVal) (hm : (k, some w) ∈ attrs) (hr : route k (some w) = false)
    (hnodup : (keysA attrs).Nodup) :
    getA ((applySetCall route actions attrs).set.getD []) k = some w := by
  have h1 : (k, w) ∈ routedSet route attrs := mem_routedSet route attrs k w hm hr
  have hne : (routedSet route attrs).isEmpty = false := isEmpty_false_of_mem h1
  simp only [applySetCall, hne, Bool.false_eq_true, if_false]
  cases h2 : (routedRemove route attrs).isEmpty <;>
    simp only [Bool.false_eq_true, if_false, if_true, Option.getD_some] <;>
    exact getA_assignA_of_nodup _ _ k w (keys_routedSet_nodup route attrs hnodup) h1

/-- C10 amended: in both `set` revisions an `undefined` value is routed to
the removal set; an empty-after-trim string is routed to removal in the V2
revision unconditionally, but in the schema-aware V3 revision only when the
schema marks the field optional — otherwise it is kept (validated) in the
assignment set; every non-routed entry lands in the assignment set with its
value. -/
theorem set_routes_empty_values
    (schema : SchemaInfo) (actions : UpdateActions) (attrs : Assoc (Option DVal))
    (k : String) (w : DVal) (s : String) (hnodup : (keysA attrs).Nodup) :
    ((k, none) ∈ attrs → k ∈ (setV2 actions attrs).remove.getD []) ∧
    ((k, some (DVal.str s)) ∈ attrs → jsTrim s = "" →
      k ∈ (setV2 actions attrs).remove.getD []) ∧
    ((k, some w) ∈ attrs → emptyRouteV2 (some w) = false →
      getA ((setV2 actions attrs).set.getD []) k = some w) ∧
    ((k, none) ∈ attrs → k ∈ (setV3 schema actions attrs).remove.getD []) ∧
    ((k, some (DVal.str s)) ∈ attrs → jsTrim s = "" → isOptionalField schema k = true →
      k ∈ (setV3 schema actions attrs).remove.getD []) ∧
    ((k, some (DVal.str s)) ∈ attrs → jsTrim s = "" → isOptionalField schema k = false →
      getA ((setV3 schema actions attrs).set.getD []) k = some (DVal.str s)) := by
  refine ⟨?_, ?_, ?_, ?_, ?_, ?_⟩
  · intro hm
    exact applySetCall_remove_mem _ actions attrs k none hm rfl
  · intro hm hs
    exact applySetCall_remove_mem _ actions attrs k _ hm (by simp [emptyRouteV2, hs])
  · intro hm hr
    exact applySetCall_set_getA _ actions attrs k w hm hr hnodup
  · intro hm
    exact applySetCall_remove_mem _ actions attrs k none hm rfl
  · intro hm hs hopt
    exact applySetCall_remove_mem _ actions attrs k _ hm
      (by simp [emptyRouteV3, hs, hopt])
  · intro hm hs hopt
    exact applySetCall_set_getA _ actions attrs k _ hm
      (by simp [emptyRouteV3, hs, hopt]) hnodup

theorem set_routes_empty_values_witness :
    ((("c", (none : Option DVal)) ∈ attrsSample →
      "c" ∈ (setV2 emptyActions attrsSample).remove.getD []) ∧
    (("c", some (DVal.str " ")) ∈ attrsSample → jsTrim " " = "" →
      "c" ∈ (setV2 emptyActions attrsSample).remove.getD []) ∧
    (("c", some (DVal.num 5)) ∈ attrsSample → emptyRouteV2 (some (DVal.num 5)) = false →
      getA ((setV2 emptyActions attrsSample).set.getD []) "c" = some (DVal.num 5)) ∧
    (("c", (none : Option DVal)) ∈ attrsSample →
      "c" ∈ (setV3 schemaNickOptional emptyActions attrsSample).remove.getD []) ∧
    (("c", some (DVal.str " ")) ∈ attrsSample → jsTrim " " = "" →
      isOptionalField schemaNickOptional "c" = true →
      "c" ∈ (setV3 schemaNickOptional emptyActions attrsSample).remove.getD []) ∧
    (("c", some (DVal.str " ")) ∈ attrsSample → jsTrim " " = "" →
      isOptionalField schemaNickOptional "c" = false →
      getA ((setV3 schemaNickOptional emptyActions attrsSample).set.getD []) "c" =
        some (DVal.str " "))) :=
  set_routes_empty_values schemaNickOptional emptyActions attrsSample "c"
    (DVal.num 5) " " (by decide)

/-- Every attribute targeted by the old in-place update expression comes
from the key-filtered field map, or is the `updatedAt` / `version`
bookkeeping attribute. -/
theorem keysA_buildUpdateCompiledOld_assignments
    (cfg : KeysConfig) (update : AttrMap) (autoTs : Bool) (now : String)
    (ev : Option Int) (a : String)
    (ha : a ∈ keysA (buildUpdateCompiledOld cfg update autoTs now ev).assignments) :
    a ∈ keysA (update.filter (fun av => !(keyFieldNames cfg).contains av.1)) ∨
      a = "updatedAt" ∨ a = "version" := by
  cases ev with
  | none =>
    unfold buildUpdateCompiledOld at ha
    simp only [] at ha
    by_cases hts : autoTs = true
    · simp only [hts, if_true] at ha
      rcases (mem_keysA_setA _ _ _ _).mp ha with h | h
      · exact Or.inl h
      · exact Or.inr (Or.inl h)
    · simp only [hts, if_false] at ha
      exact Or.inl ha
  | some e =>
    unfold buildUpdateCompiledOld at ha
    simp only [] at ha
    rcases (mem_keysA_setA _ _ _ _).mp ha with h1 | h1
    · by_cases hts : autoTs = true
      · simp only [hts, if_true] at h1
        rcases (mem_keysA_setA _ _ _ _).mp h1 with h | h
        · exact Or.inl h
        · exact Or.inr (Or.inl h)
      · simp only [hts, if_false] at h1
        exact Or.inl h1
    · exact Or.inr (Or.inr h1)

/-- The field-map loop of the old update expression skips every entry named
like a key storage attribute. -/
theorem keyfield_not_in_filtered (cfg : KeysConfig) (update : AttrMap)
    (a : String) (ha : a ∈ keyFieldNames cfg) :
    a ∉ keysA (update.filter (fun av => !(keyFieldNames cfg).contains av.1)) := by
  intro hmem
  obtain ⟨⟨a', v⟩, hin, hfst⟩ := List.mem_map.mp hmem
  have hfst' : a' = a := hfst
  subst hfst'
  have hp := (List.mem_filter.mp hin).2
  simp only [Bool.not_eq_true'] at hp
  have h2 : (keyFieldNames cfg).contains a' = true := List.elem_eq_true_of_mem ha
  rw [h2] at hp
  cases hp

/-- C9: the old `BetterDDB.update` / `buildTransactUpdate` silently drop
every field-map entry whose attribute name equals the primary or sort key
storage attribute; consequently — provided those key attributes are not the
`updatedAt`/`version` bookkeeping names — the compiled SET assignments
never target the primary or sort key attribute, and applying the compiled
assignments leaves the key attributes and every attribute the expression
does not name unchanged. -/
theorem inplace_update_never_touches_key_attributes
    (cfg : KeysConfig) (update : AttrMap) (autoTs : Bool) (now : String)
    (ev : Option Int) (item : AttrMap)
    (hpk1 : cfg.primary.name ≠ "updatedAt") (hpk2 : cfg.primary.name ≠ "version")
    (hsk : ∀ sk, cfg.sort = some sk → sk.name ≠ "updatedAt" ∧ sk.name ≠ "version") :
    cfg.primary.name ∉ keysA (buildUpdateCompiledOld cfg update autoTs now ev).assignments ∧
    (∀ sk, cfg.sort = some sk →
      sk.name ∉ keysA (buildUpdateCompiledOld cfg update autoTs now ev).assignments) ∧
    (∀ a, a ∉ keysA (buildUpdateCompiledOld cfg update autoTs now ev).assignments →
      getA (applyAssignments item (buildUpdateCompiledOld cfg update autoTs now ev).assignments) a =
        getA item a) ∧
    getA (applyAssignments item (buildUpdateCompiledOld cfg update autoTs now ev).assignments)
      cfg.primary.name = getA item cfg.primary.name ∧
    (∀ sk, cfg.sort = some sk →
      getA (applyAssignments item (buildUpdateCompiledOld cfg update autoTs now ev).assignments)
        sk.name = getA item sk.name) := by
  have hframe : ∀ a,
      a ∉ keysA (buildUpdateCompiledOld cfg update autoTs now ev).assignments →
      getA (applyAssignments item (buildUpdateCompiledOld cfg update autoTs now ev).assignments) a =
        getA item a :=
    fun a ha => getA_assignA_not_mem _ item a ha
  have hpk : cfg.primary.name ∉
      keysA (buildUpdateCompiledOld cfg update autoTs now ev).assignments := by
    intro hmem
    rcases keysA_buildUpdateCompiledOld_assignments cfg update autoTs now ev _ hmem with
      h | h | h
    · exact keyfield_not_in_filtered cfg update _ (by simp [keyFieldNames]) h
    · exact hpk1 h
    · exact hpk2 h
  have hskmem : ∀ sk, cfg.sort = some sk →
      sk.name ∉ keysA (buildUpdateCompiledOld cfg update autoTs now ev).assignments := by
    intro sk hsort hmem
    rcases keysA_buildUpdateCompiledOld_assignments cfg update autoTs now ev _ hmem with
      h | h | h
    · exact keyfield_not_in_filtered cfg update _ (by simp [keyFieldNames, hsort]) h
    · exact (hsk sk hsort).1 h
    · exact (hsk sk hsort).2 h
  exact ⟨hpk, hskmem, hframe, hframe _ hpk, fun sk hs => hframe _ (hskmem sk hs)⟩

theorem inplace_update_never_touches_key_attributes_witness :
    cfgSimple.primary.name ∉ keysA (buildUpdateCompiledOld cfgSimple
      [("name", DVal.str "x"), ("pk", DVal.str "boom")] true "t0" (some 1)).assignments ∧
    (∀ sk, cfgSimple.sort = some sk →
      sk.name ∉ keysA (buildUpdateCompiledOld cfgSimple
        [("name", DVal.str "x"), ("pk", DVal.str "boom")] true "t0" (some 1)).assignments) ∧
    (∀ a, a ∉ keysA (buildUpdateCompiledOld cfgSimple
        [("name", DVal.str "x"), ("pk", DVal.str "boom")] true "t0" (some 1)).assignments →
      getA (applyAssignments [("pk", DVal.str "P"), ("name", DVal.str "old")]
        (buildUpdateCompiledOld cfgSimple
          [("name", DVal.str "x"), ("pk", DVal.str "boom")] true "t0" (some 1)).assignments) a =
        getA [("pk", DVal.str "P"), ("name", DVal.str "old")] a) ∧
    getA (applyAssignments [("pk", DVal.str "P"), ("name", DVal.str "old")]
      (buildUpdateCompiledOld cfgSimple
        [("name", DVal.str "x"), ("pk", DVal.str "boom")] true "t0" (some 1)).assignments)
      cfgSimple.primary.name =
      getA [("pk", DVal.str "P"), ("name", DVal.str "old")] cfgSimple.primary.name ∧
    (∀ sk, cfgSimple.sort = some sk →
      getA (applyAssignments [("pk", DVal.str "P"), ("name", DVal.str "old")]
        (buildUpdateCompiledOld cfgSimple
          [("name", DVal.str "x"), ("pk", DVal.str "boom")] true "t0" (some 1)).assignments)
        sk.name = getA [("pk", DVal.str "P"), ("name", DVal.str "old")] sk.name) :=
  inplace_update_never_touches_key_attributes cfgSimple
    [("name", DVal.str "x"), ("pk", DVal.str "boom")] true "t0" (some 1)
    [("pk", DVal.str "P"), ("name", DVal.str "old")]
    (by decide) (by decide) (by intro sk h; simp [cfgSimple] at h)

theorem getA_addNameTokens_mem (p : String) (fields : List String)
    (m : Assoc String) (a : String) (ha : a ∈ fields)
    (hn : (fields.map (fun x => p ++ x)).Nodup) :
    getA (addNameTokens p fields m) (p ++ a) = some a :=
  getA_foldl_setA_mem (fun x => p ++ x) (fun x => x) fields a ha hn m

theorem getA_addValueTokens_mem (p : String) (entries : AttrMap) (m : AttrMap)
    (attr : String) (v : DVal) (hmem : (attr, v) ∈ entries)
    (hn : (entries.map (fun av => p ++ av.1)).Nodup) :
    getA (addValueTokens p entries m) (p ++ attr) = some v :=
  getA_foldl_setA_mem (fun (av : String × DVal) => p ++ av.1) (fun av => av.2)
    entries (attr, v) hmem hn m

theorem nodup_prefix_map (p : String) (l : List String) (h : l.Nodup) :
    (l.map (fun x => p ++ x)).Nodup := by
  refine List.Nodup.map ?_ h
  intro a b hab
  exact string_append_cancel_left hab

theorem nodup_prefix_entries (p : String) (l : AttrMap) (h : (keysA l).Nodup) :
    (l.map (fun av => p ++ av.1)).Nodup := by
  have he : l.map (fun av => p ++ av.1) = (keysA l).map (fun x => p ++ x) := by
    simp [keysA, List.map_map, Function.comp_def]
  rw [he]
  exact nodup_prefix_map p _ h

/-- C3: for an update intent that changes only index-referenced fields (the
primary/sort key recomputed from the new item equals the one from the old
item) and never explicitly sets the index storage attributes, the V3
`buildExpression` emits, for every recomputed index attribute, the
assignment `#n_idx_attr = :v_idx_attr` inside the compiled SET clause, with
the name placeholder resolving to the storage attribute and the value
placeholder bound to the recomputed value. -/
theorem index_attrs_in_compiled_set_clause
    (cfg : KeysConfig) (actions : UpdateActions) (oldItem newItem : AttrMap)
    (attr : String) (v : DVal)
    (hrem : actions.remove = none) (hadd : actions.add = none)
    (hdel : actions.delete = none)
    (hkey : buildKey cfg newItem = buildKey cfg oldItem)
    (hcaller : attr ∉ keysA (actions.set.getD []))
    (hidx : (keysA (buildIndexes cfg newItem)).Nodup)
    (hmem : (attr, v) ∈ buildIndexes cfg newItem) :
    ∃ c, buildExpressionV3 cfg actions none (some newItem) = .ok c ∧
      ("#n_idx_" ++ attr ++ " = " ++ ":v_idx_" ++ attr) ∈
        v3SetParts cfg actions (some newItem) ∧
      c.updateExpression =
        "SET " ++ String.intercalate ", " (v3SetParts cfg actions (some newItem)) ∧
      getA c.attributeNames ("#n_idx_" ++ attr) = some attr ∧
      (∃ vals, c.attributeValues = some vals ∧
        getA vals (":v_idx_" ++ attr) = some v) := by
  have hfragmem : ("#n_idx_" ++ attr ++ " = " ++ ":v_idx_" ++ attr) ∈
      v3SetParts cfg actions (some newItem) := by
    unfold v3SetParts
    refine List.mem_append_right _ ?_
    unfold assignFragments
    exact List.mem_map_of_mem _ hmem
  have hsetpartsne : v3SetParts cfg actions (some newItem) ≠ [] :=
    List.ne_nil_of_mem hfragmem
  have hclauses : v3Clauses cfg actions (some newItem) =
      ["SET " ++ String.intercalate ", " (v3SetParts cfg actions (some newItem))] := by
    unfold v3Clauses
    rw [hrem, hadd, hdel]
    simp [hsetpartsne, spaceFragments]
  have hnames : getA (v3Names cfg actions (some newItem)) ("#n_idx_" ++ attr) =
      some attr := by
    unfold v3Names
    rw [hrem, hadd, hdel]
    show getA (addNameTokens "#n_idx_" (keysA (v3IdxEntries cfg (some newItem)))
      (addNameTokens "#n_" (keysA (actions.set.getD [])) [])) ("#n_idx_" ++ attr) =
      some attr
    exact getA_addNameTokens_mem "#n_idx_" _ _ attr
      (List.mem_map_of_mem Prod.fst hmem)
      (nodup_prefix_map "#n_idx_" _ hidx)
  have hvals : getA (v3Values cfg actions (some newItem)) (":v_idx_" ++ attr) =
      some v := by
    unfold v3Values
    rw [hadd, hdel]
    show getA (addValueTokens ":v_idx_" (v3IdxEntries cfg (some newItem))
      (addValueTokens ":v_" (actions.set.getD []) [])) (":v_idx_" ++ attr) = some v
    exact getA_addValueTokens_mem ":v_idx_" _ _ attr v hmem
      (nodup_prefix_entries ":v_idx_" _ hidx)
  have hvne : v3Values cfg actions (some newItem) ≠ [] := by
    intro h
    rw [h] at hvals
    simp [getA] at hvals
  refine ⟨⟨"SET " ++ String.intercalate ", " (v3SetParts cfg actions (some newItem)),
      v3Names cfg actions (some newItem),
      some (v3Values cfg actions (some newItem))⟩,
    ?_, hfragmem, rfl, hnames, ⟨_, rfl, hvals⟩⟩
  unfold buildExpressionV3
  rw [hclauses]
  simp [hvne]
  rfl

theorem index_attrs_in_compiled_set_clause_witness :
    ∃ c, buildExpressionV3 cfgGsi emailActions none (some newEmailItem) = .ok c ∧
      ("#n_idx_" ++ "gsi1pk" ++ " = " ++ ":v_idx_" ++ "gsi1pk") ∈
        v3SetParts cfgGsi emailActions (some newEmailItem) ∧
      c.updateExpression =
        "SET " ++ String.intercalate ", " (v3SetParts cfgGsi emailActions (some newEmailItem)) ∧
      getA c.attributeNames ("#n_idx_" ++ "gsi1pk") = some "gsi1pk" ∧
      (∃ vals, c.attributeValues = some vals ∧
        getA vals (":v_idx_" ++ "gsi1pk") = some (DVal.str "EMAIL#b@x.com")) :=
  index_attrs_in_compiled_set_clause cfgGsi emailActions oldEmailItem newEmailItem
    "gsi1pk" (DVal.str "EMAIL#b@x.com") rfl rfl rfl (by decide) (by decide)
    (by decide) (by decide)

/-- C2 counterexample: field `a` is assigned `1` while the caller condition
declares the pre-update value `2` under the very token `:v_a` that the SET
clause mints for `a`.  The two occurrences of `:v_a` stand for two distinct
underlying values, and the compiled statement's final value map silently
binds the condition's value — the SET fragment `#n_a = :v_a` now writes the
condition's operand. -/
theorem condition_token_collides_with_set_token :
    ¬ TokenConsistent (updateValOccurrencesV2 collideActions (some collideCondition)) ∧
    buildExpressionV2 collideActions (some collideCondition) =
      .ok { updateExpression := "SET #n_a = :v_a"
            attributeNames := [("#n_a", "a"), ("#c_a", "a")]
            attributeValues := some [(":v_a", DVal.num 2)] } :=
  ⟨by decide, by decide⟩

theorem mapped_token_consistent (p : String) (entries : AttrMap)
    (hnodup : (keysA entries).Nodup) :
    TokenConsistent (entries.map (fun av => (p ++ av.1, av.2))) := by
  intro x hx y hy hxy
  obtain ⟨⟨a, va⟩, ha, hxe⟩ := List.mem_map.mp hx
  obtain ⟨⟨b, vb⟩, hb, hye⟩ := List.mem_map.mp hy
  subst hxe; subst hye
  have hab : a = b := string_append_cancel_left hxy
  subst hab
  exact nodup_keys_functional hnodup ha hb

theorem name_token_consistent (p : String) (fields : List String) :
    TokenConsistent (fields.map (fun a => (p ++ a, a))) := by
  intro x hx y hy hxy
  obtain ⟨a, ha, hxe⟩ := List.mem_map.mp hx
  obtain ⟨b, hb, hye⟩ := List.mem_map.mp hy
  subst hxe; subst hye
  exact string_append_cancel_left hxy

theorem tokenConsistent_append {α : Type} {l1 l2 : Assoc α}
    (h1 : TokenConsistent l1) (h2 : TokenConsistent l2)
    (hdisj : ∀ t ∈ keysA l1, ∀ t' ∈ keysA l2, t ≠ t') :
    TokenConsistent (l1 ++ l2) := by
  intro x hx y hy hxy
  rcases List.mem_append.mp hx with hx' | hx' <;>
    rcases List.mem_append.mp hy with hy' | hy'
  · exact h1 x hx' y hy' hxy
  · exact absurd hxy
      (hdisj x.1 (List.mem_map_of_mem _ hx') y.1 (List.mem_map_of_mem _ hy'))
  · exact absurd hxy.symm
      (hdisj y.1 (List.mem_map_of_mem _ hy') x.1 (List.mem_map_of_mem _ hx'))
  · exact h2 x hx' y hy' hxy

theorem start_end_tokens_ne (a r b r' : String) :
    ":val_start_" ++ a ++ "_" ++ r ≠ ":val_end_" ++ b ++ "_" ++ r' := by
  intro h
  have hA : (":val_start_" ++ a ++ "_" ++ r : String) =
      ":val_" ++ ("start_" ++ (a ++ ("_" ++ r))) := by
    rw [string_append_assoc, string_append_assoc,
      show (":val_start_" : String) = ":val_" ++ "start_" from rfl,
      string_append_assoc]
  have hB : (":val_end_" ++ b ++ "_" ++ r' : String) =
      ":val_" ++ ("end_" ++ (b ++ ("_" ++ r'))) := by
    rw [string_append_assoc, string_append_assoc,
      show (":val_end_" : String) = ":val_" ++ "end_" from rfl,
      string_append_assoc]
  rw [hA, hB] at h
  have h2 := string_append_cancel_left h
  exact string_append_head_ne (p := "start_") (q := "end_") rfl rfl
    (by decide) _ _ h2

/-- C2 amended: token uniqueness holds only conditionally.  Within the V2
update builder's compiled statement, tokens are minted per field name
(`#n_attr` / `:v_attr`), so value-token uniqueness needs the field names of
the SET/ADD/DELETE action sets to be mutually distinct, and caller-supplied
condition bindings are merged verbatim, so their tokens must be internally
consistent and disjoint from the minted token shapes; under those
hypotheses every name and value token of the full statement stands for one
underlying name/value.  In the query builder's `filter`, tokens carry a
per-call random suffix: two filter calls on the same attribute and operator
with distinct suffixes mint disjoint value tokens (per occurrence, as the
specification demands). -/
theorem update_tokens_unique_under_freshness
    (actions : UpdateActions) (condition : Option UpdateCondition)
    (hnodup : (keysA (actions.set.getD [] ++ actions.add.getD [] ++
      actions.delete.getD [])).Nodup)
    (hcondV : ∀ c, condition = some c → TokenConsistent c.attributeValues ∧
      ∀ t ∈ keysA c.attributeValues,
        ∀ a ∈ keysA (actions.set.getD [] ++ actions.add.getD [] ++
          actions.delete.getD []), t ≠ ":v_" ++ a)
    (hcondN : ∀ c, condition = some c → TokenConsistent c.attributeNames ∧
      ∀ t ∈ keysA c.attributeNames,
        ∀ a ∈ keysA (actions.set.getD []) ++ actions.remove.getD [] ++
          keysA (actions.add.getD []) ++ keysA (actions.delete.getD []),
          t ≠ "#n_" ++ a)
    (attrName r r' : String) (op : Operator) (hr : r ≠ r') :
    TokenConsistent (updateValOccurrencesV2 actions condition) ∧
    TokenConsistent (updateNameOccurrencesV2 actions condition) ∧
    (∀ t ∈ filterValueTokens attrName op r, t ∉ filterValueTokens attrName op r') := by
  refine ⟨?_, ?_, ?_⟩
  · unfold updateValOccurrencesV2
    cases condition with
    | none =>
      rw [List.append_nil]
      exact mapped_token_consistent ":v_" _ hnodup
    | some c =>
      refine tokenConsistent_append (mapped_token_consistent ":v_" _ hnodup)
        (hcondV c rfl).1 ?_
      intro t ht t' ht' he
      have hkeys : keysA ((actions.set.getD [] ++ actions.add.getD [] ++
          actions.delete.getD []).map (fun av => (":v_" ++ av.1, av.2))) =
          (actions.set.getD [] ++ actions.add.getD [] ++
            actions.delete.getD []).map (fun av => ":v_" ++ av.1) := by
        simp [keysA, List.map_map, Function.comp_def]
      rw [hkeys] at ht
      obtain ⟨⟨a, va⟩, ha, hte⟩ := List.mem_map.mp ht
      subst hte
      exact ((hcondV c rfl).2 t' ht' a (List.mem_map_of_mem Prod.fst ha)) he.symm
  · unfold updateNameOccurrencesV2
    cases condition with
    | none =>
      rw [List.append_nil]
      exact name_token_consistent "#n_" _
    | some c =>
      refine tokenConsistent_append (name_token_consistent "#n_" _)
        (hcondN c rfl).1 ?_
      intro t ht t' ht' he
      have hkeys : keysA ((keysA (actions.set.getD []) ++ actions.remove.getD [] ++
          keysA (actions.add.getD []) ++ keysA (actions.delete.getD [])).map
            (fun a => ("#n_" ++ a, a))) =
          (keysA (actions.set.getD []) ++ actions.remove.getD [] ++
            keysA (actions.add.getD []) ++ keysA (actions.delete.getD [])).map
            (fun a => "#n_" ++ a) := by
        simp [keysA, List.map_map, Function.comp_def]
      rw [hkeys] at ht
      obtain ⟨a, ha, hte⟩ := List.mem_map.mp ht
      subst hte
      exact ((hcondN c rfl).2 t' ht' a ha) he.symm
  · intro t ht ht'
    have hplain : ∀ a : String, (a ++ r : String) ≠ a ++ r' :=
      fun a h => hr (string_append_cancel_left h)
    cases op <;> simp only [filterValueTokens, List.mem_singleton,
        List.mem_cons, List.not_mem_nil, or_false] at ht ht'
    case between =>
      rcases ht with rfl | rfl <;> rcases ht' with h | h
      · exact hplain (":val_start_" ++ attrName ++ "_") h
      · exact start_end_tokens_ne attrName r attrName r' h
      · exact (start_end_tokens_ne attrName r' attrName r) h.symm
      · exact hplain (":val_end_" ++ attrName ++ "_") h
    all_goals
      subst ht
      exact hplain (":val_" ++ attrName ++ "_") ht'

theorem update_tokens_unique_under_freshness_witness :
    (TokenConsistent (updateValOccurrencesV2 renameActions (some freshCondition)) ∧
      TokenConsistent (updateNameOccurrencesV2 renameActions (some freshCondition)) ∧
      (∀ t ∈ filterValueTokens "age" .between "r1",
        t ∉ filterValueTokens "age" .between "r2")) :=
  update_tokens_unique_under_freshness renameActions (some freshCondition)
    (by decide)
    (by intro c hc; cases hc; exact ⟨by decide, by decide⟩)
    (by intro c hc; cases hc; exact ⟨by decide, by decide⟩)
    "age" "r1" "r2" .between (by decide)

end BetterDDB
